import Mathlib

/-!
Verification of the peer-session state machine of go-diameter's `diam/sm`
package (file `diam/sm/sm.go`): the application-registry builder
(`computeAppFilters`, `appAllowedByFilters`, `PrepareSupportedApps`), the
handshake gate (`handshakeOK`), the reserved-command guard
(`StateMachine.Handle` / `HandleFunc` / `HandleIdx`) and the constructor
(`New`).

The Go code is shallowly embedded: Go maps become association lists with
insert-or-replace (`mapInsert`) and first-match lookup (`lookupKV`), Go
channels become lists of pushed values, handlers become trace-producing
functions `Conn → Message → List Action`, and `strings.Split(s, ".")`
becomes `goSplitDot` (splitting around every occurrence of the separator,
returning `[""]` on the empty string).
-/

set_option autoImplicit false

namespace DiamSM

/-- A vendor entry of a dictionary application (`dict.Vendor`): numeric ID
and name. -/
structure Vendor where
  id : Nat
  name : String
  deriving DecidableEq, Repr

/-- A dictionary application (`dict.App`): numeric ID, type string
(for example "auth" or "acct"), name, and its vendor list. A dictionary
(`dict.Parser`) is embedded as the list of its applications in iteration
order (`d.Apps()`). -/
structure App where
  id : Nat
  type : String
  name : String
  vendor : List Vendor
  deriving DecidableEq, Repr

/-- `SupportedApp` from sm.go: properties of each locally supported app. -/
structure SupportedApp where
  id : Nat
  appType : String
  vendor : Nat
  deriving DecidableEq, Repr

/-- Insert-or-replace on an association list: the embedding of a Go map
assignment `m[k] = v`. The first binding of `k` is replaced in place;
if `k` is unbound the pair is appended. -/
def mapInsert {α β : Type} [DecidableEq α] : List (α × β) → α → β → List (α × β)
  | [], k, v => [(k, v)]
  | (a, b) :: rest, k, v =>
      if a = k then (k, v) :: rest else (a, b) :: mapInsert rest k v

/-- First-match lookup on an association list: the embedding of a Go map
read `m[k]`. -/
def lookupKV {α β : Type} [DecidableEq α] (k : α) : List (α × β) → Option β
  | [] => none
  | (a, b) :: rest => if a = k then some b else lookupKV k rest

/-- Go's `strings.Split(s, ".")` on the string's character list: splits
around every occurrence of the separator character; the empty string
yields one empty part, and the result is never the empty list. -/
def splitDot : List Char → List (List Char)
  | [] => [[]]
  | c :: rest =>
    match splitDot rest with
    | [] => [[]]
    | part :: parts =>
        if c = '.' then [] :: part :: parts
        else (c :: part) :: parts

/-- Go's `strings.Split(s, ".")` as used by computeAppFilters. -/
def goSplitDot (s : String) : List String :=
  (splitDot s.data).map String.mk

/-- Parse one filter string as computeAppFilters does: split on ".";
with two or more parts, part 1 is the match key and part 0 the required
vendor name; with one part, it is the match key and the vendor is empty.
(`goSplitDot` never returns `[]`, so the last branch is unreachable —
Go's `strings.Split` always returns at least one part.) -/
def parseFilter (appStr : String) : String × String :=
  match goSplitDot appStr with
  | p0 :: p1 :: _ => (p1, p0)
  | [p0] => (p0, "")
  | [] => ("", "")

/-- The body of computeAppFilters' loop for one filter string: insert the
parsed (match key, vendor) pair into the mapping. -/
def filterStep (m : List (String × String)) (appStr : String) :
    List (String × String) :=
  mapInsert m (parseFilter appStr).1 (parseFilter appStr).2

/-- `computeAppFilters` from sm.go: converts the supportedApps slice to a
map whose keys are either the ID or Name and whose value is the vendor
name. A `nil` slice (embedded as `none`) yields a `nil` map. -/
def computeAppFilters (supportedApps : Option (List String)) :
    Option (List (String × String)) :=
  match supportedApps with
  | none => none
  | some apps => some (apps.foldl filterStep [])

/-- `appAllowedByFilters` from sm.go: decides whether to append the current
dict.App into supported apps. A `nil` filter map allows everything;
otherwise some entry must match the app's decimal ID string or name, and
when the entry carries a vendor name the app's first vendor must bear it. -/
def appAllowedByFilters (app : App) (appFilters : Option (List (String × String))) :
    Bool :=
  match appFilters with
  | none => true
  | some filters =>
      filters.any fun p =>
        (toString app.id == p.1 || app.name == p.1) &&
        (p.2 == "" ||
          match app.vendor.head? with
          | some v => v.name == p.2
          | none => false)

/-- The SupportedApp record built by PrepareSupportedApps' loop body: the
`for _, vendor := range app.Vendor` loop leaves `Vendor` equal to the LAST
vendor's ID (zero-initialised, overwritten on each iteration). -/
def buildSupportedApp (app : App) : SupportedApp :=
  { id := app.id
    appType := app.type
    vendor := app.vendor.foldl (fun _ v => v.id) 0 }

/-- `PrepareSupportedApps` from sm.go: prepares a list of locally supported
apps by iterating the dictionary's applications in order, skipping those
with ID 0 or not allowed by the filters, and appending the built record. -/
def PrepareSupportedApps (dictApps : List App)
    (supportedApps : Option (List String)) : List SupportedApp :=
  let appFilters := computeAppFilters supportedApps
  dictApps.filterMap fun app =>
    if app.id = 0 || !appAllowedByFilters app appFilters then none
    else some (buildSupportedApp app)

/-- `diam.CommandIndex`: {ApplicationID, CommandCode, IsRequest}. -/
structure CommandIndex where
  appID : Nat
  code : Nat
  request : Bool
  deriving DecidableEq, Repr

/-- `diam.CapabilitiesExchange` command code (257). -/
def CapabilitiesExchange : Nat := 257

/-- `diam.DeviceWatchdog` command code (280). -/
def DeviceWatchdog : Nat := 280

/-- `baseCERIdx` from sm.go. -/
def baseCERIdx : CommandIndex := { appID := 0, code := CapabilitiesExchange, request := true }

/-- `baseCEAIdx` from sm.go. -/
def baseCEAIdx : CommandIndex := { appID := 0, code := CapabilitiesExchange, request := false }

/-- `baseDWRIdx` from sm.go. -/
def baseDWRIdx : CommandIndex := { appID := 0, code := DeviceWatchdog, request := true }

/-- A Diameter message header as far as routing is concerned, with an
abstract payload standing for the AVPs. -/
structure Message where
  appID : Nat
  code : Nat
  request : Bool
  payload : Nat
  deriving DecidableEq, Repr

/-- Modelled from the spec: the per-connection marker proving handshake
completion (`smpeer.Peer`, package smpeer not under src/); only its
presence matters here. -/
structure Peer where
  unit : Unit
  deriving DecidableEq, Repr

/-- Modelled from the spec: a connection's context store
(`c.Context()`), embedded as the optional PeerContext entry it may hold. -/
structure Ctx where
  peer : Option Peer
  deriving DecidableEq, Repr

/-- `diam.Conn` as far as this package reads it: an identity and the
per-connection context store. -/
structure Conn where
  id : Nat
  context : Ctx
  deriving DecidableEq, Repr

/-- Modelled from the spec: `smpeer.FromContext` (package smpeer not under
src/) looks the PeerContext up in the connection's context store and
reports whether it is present. -/
def smpeer_FromContext (ctx : Ctx) : Option Peer :=
  ctx.peer

/-- The observable actions a handler may perform: running a handler body
(tagged by the command code it serves), writing an answer message to the
connection, or pushing an error report. A handler that performs no action
has the empty trace. -/
inductive Action where
  | invoked (tag : Nat) (c : Conn) (m : Message)
  | answered (c : Conn) (m : Message)
  | reported (e : String)
  deriving DecidableEq, Repr

/-- `diam.HandlerFunc`: a handler is embedded as the trace of actions it
performs on a (connection, message) pair. -/
abbrev HandlerFunc : Type := Conn → Message → List Action

/-- `handshakeOK` from sm.go: a wrapper for state machine handlers that
only calls the designated handler function if the peer has passed the
CER/CEA handshake (PeerContext present in the connection's context). -/
def handshakeOK (f : HandlerFunc) : HandlerFunc := fun c m =>
  match smpeer_FromContext c.context with
  | some _ => f c m
  | none => []

/-- `diam.ErrorReport`, reduced to its error text. -/
structure ErrorReport where
  error : String
  deriving DecidableEq, Repr

/-- Modelled from the spec: `diam.ServeMux` (not under src/) — a message
router mapping command identifiers (symbolic names and structured indices)
to handlers, with an error channel; the channel is embedded as the list of
reports pushed so far. -/
structure ServeMux where
  byName : List (String × HandlerFunc)
  byIdx : List (CommandIndex × HandlerFunc)
  errors : List ErrorReport

/-- Modelled from the spec: `diam.NewServeMux` — a router with no
registrations and an empty error channel. -/
def NewServeMux : ServeMux :=
  { byName := [], byIdx := [], errors := [] }

/-- Modelled from the spec: `ServeMux.Handle` — (re)bind a symbolic command
name to a handler in the routing table. -/
def muxHandle (mux : ServeMux) (cmd : String) (h : HandlerFunc) : ServeMux :=
  { mux with byName := mapInsert mux.byName cmd h }

/-- Modelled from the spec: `ServeMux.HandleIdx` — (re)bind a structured
command index to a handler in the routing table. -/
def muxHandleIdx (mux : ServeMux) (cmd : CommandIndex) (h : HandlerFunc) : ServeMux :=
  { mux with byIdx := mapInsert mux.byIdx cmd h }

/-- Modelled from the spec: `ServeMux.Error` — push one report onto the
error channel. -/
def muxError (mux : ServeMux) (e : ErrorReport) : ServeMux :=
  { mux with errors := mux.errors ++ [e] }

/-- `datatype.Address` ([]byte): a host IP address as its byte list. -/
abbrev Address : Type := List Nat

/-- `Settings` from sm.go: configuration for the state machine. -/
structure Settings where
  supportedApps : Option (List String)
  originHost : String
  originRealm : String
  vendorID : Nat
  productName : String
  originStateID : Nat
  firmwareRevision : Nat
  hostIPAddresses : List Address
  hostIPAddress : Address

/-- `StateMachine` from sm.go: settings, the mux, and the supported-app
list. The handshake-notification channel is carried as the list of
connections pushed so far. -/
structure StateMachine where
  cfg : Settings
  mux : ServeMux
  hsNotifyc : List Conn
  supportedApps : List SupportedApp

/-- `StateMachine.Error` from sm.go: delegate the report to the mux's
error channel. -/
def StateMachine.Error (sm : StateMachine) (err : ErrorReport) : StateMachine :=
  { sm with mux := muxError sm.mux err }

/-- `StateMachine.HandleFunc` from sm.go: reject the reserved command
names "CER", "CEA" and "DWR" with an asynchronous error report, register
anything else wrapped in the handshake gate. The embedding is a total
function (the Go method neither panics nor returns an error). -/
def StateMachine.HandleFunc (sm : StateMachine) (cmd : String) (handler : HandlerFunc) :
    StateMachine :=
  if cmd = "CER" ∨ cmd = "CEA" ∨ cmd = "DWR" then
    sm.Error { error := "cannot overwrite " ++ cmd ++ " command in the state machine" }
  else
    { sm with mux := muxHandle sm.mux cmd (handshakeOK handler) }

/-- `StateMachine.Handle` from sm.go: delegates to HandleFunc with the
handler's ServeDIAM method (the identity in this embedding). -/
def StateMachine.Handle (sm : StateMachine) (cmd : String) (handler : HandlerFunc) :
    StateMachine :=
  sm.HandleFunc cmd handler

/-- Go's `fmt` rendering `%v` of a CommandIndex struct value, as it
appears in HandleIdx's error text: the fields, space-separated, in
braces. -/
def formatCommandIndex (cmd : CommandIndex) : String :=
  "\x7b" ++ toString cmd.appID ++ " " ++ toString cmd.code ++ " " ++
    (if cmd.request then "true" else "false") ++ "\x7d"

/-- `StateMachine.HandleIdx` from sm.go: reject the three reserved base
command indices with an asynchronous error report, register anything else
wrapped in the handshake gate. -/
def StateMachine.HandleIdx (sm : StateMachine) (cmd : CommandIndex) (handler : HandlerFunc) :
    StateMachine :=
  if cmd = baseCERIdx ∨ cmd = baseCEAIdx ∨ cmd = baseDWRIdx then
    sm.Error { error := "cannot overwrite " ++ formatCommandIndex cmd ++
      " command in the state machine" }
  else
    { sm with mux := muxHandleIdx sm.mux cmd (handshakeOK handler) }

/-- Modelled from the spec: `handleCER` (file not under src/) — the
Capabilities-Exchange-Request handler; it is registered ungated, and for
the claims below only its identity as a handler value matters. Its trace
records that its body ran and that it wrote an answer. -/
def handleCER (_sm : StateMachine) : HandlerFunc := fun c m =>
  [Action.invoked CapabilitiesExchange c m,
   Action.answered c { m with request := false }]

/-- Modelled from the spec: `handleDWR` (file not under src/) — the
Device-Watchdog-Request handler; per the spec it responds with a success
answer. Its trace records that its body ran and that it wrote the
watchdog answer. -/
def handleDWR (_sm : StateMachine) : HandlerFunc := fun c m =>
  [Action.invoked DeviceWatchdog c m,
   Action.answered c { m with request := false }]

/-- The state machine as built by `New` before its four registration
calls: promoted settings, a fresh mux, an empty notification channel, and
the supported apps prepared from the dictionary. `New` reads the ambient
`dict.Default`; the embedding passes the dictionary explicitly. -/
def newCore (dictApps : List App) (settings : Settings) : StateMachine :=
  let settings2 :=
    if settings.hostIPAddresses.length = 0 ∧ settings.hostIPAddress.length > 0 then
      { settings with hostIPAddresses := [settings.hostIPAddress] }
    else settings
  { cfg := settings2
    mux := NewServeMux
    hsNotifyc := []
    supportedApps := PrepareSupportedApps dictApps settings2.supportedApps }

/-- `New` from sm.go: promote the deprecated single host IP address, build
the state machine, then register the built-in handlers directly on the
mux: "CER" ungated, "DWR" gated, then by index — CER ungated and DWR
*ungated* (the fourth registration does not wrap handleDWR in
handshakeOK). -/
def New (dictApps : List App) (settings : Settings) : StateMachine :=
  let sm := newCore dictApps settings
  let sm1 := { sm with mux := muxHandle sm.mux "CER" (handleCER sm) }
  let sm2 := { sm1 with mux := muxHandle sm1.mux "DWR" (handshakeOK (handleDWR sm)) }
  let sm3 := { sm2 with mux := muxHandleIdx sm2.mux baseCERIdx (handleCER sm) }
  { sm3 with mux := muxHandleIdx sm3.mux baseDWRIdx (handleDWR sm) }

/-- The vendor constraint the spec's words assign to a match key: the
parse of the LAST filter string in the list whose match key is `k` — "the
later entry silently replaces the earlier one". Spec-side definition, to
be compared with the mapping computeAppFilters compiles. -/
def lastWrite (fs : List String) (k : String) : Option String :=
  match fs with
  | [] => none
  | s :: rest =>
    match lastWrite rest k with
    | some v => some v
    | none => if (parseFilter s).1 = k then some (parseFilter s).2 else none

/-- Concrete settings used to instantiate universally quantified theorems:
empty address list, deprecated single address set. -/
def exampleSettings : Settings :=
  { supportedApps := none
    originHost := "srv.example.com"
    originRealm := "example.com"
    vendorID := 13
    productName := "go-diameter"
    originStateID := 0
    firmwareRevision := 1
    hostIPAddresses := []
    hostIPAddress := [127, 0, 0, 1] }

/-- A connection whose context store holds no PeerContext (handshake not
completed). -/
def noPeerConn : Conn := { id := 1, context := { peer := none } }

/-- A connection whose context store holds a PeerContext (handshake
completed). -/
def okPeerConn : Conn := { id := 2, context := { peer := some { unit := () } } }

/-- A Re-Auth-Request message (command code 258), a non-reserved command. -/
def rarMsg : Message := { appID := 1, code := 258, request := true, payload := 5 }

/-- A Device-Watchdog-Request message. -/
def dwrMsg : Message := { appID := 0, code := DeviceWatchdog, request := true, payload := 7 }

/-- A concrete host handler used to instantiate universally quantified
theorems: it records that its body ran. -/
def exampleHandler : HandlerFunc := fun c m => [Action.invoked 258 c m]

/-- A non-reserved structured command index (Re-Auth-Request under app 1). -/
def rarIdx : CommandIndex := { appID := 1, code := 258, request := true }

theorem lookupKV_mapInsert {α β : Type} [DecidableEq α] (m : List (α × β)) (a k : α) (v : β) :
    lookupKV k (mapInsert m a v) = if a = k then some v else lookupKV k m := by
  induction m with
  | nil => simp [mapInsert, lookupKV]
  | cons p rest ih =>
    obtain ⟨a1, b1⟩ := p
    by_cases h1 : a1 = a
    · subst h1
      by_cases h2 : a1 = k <;> simp [mapInsert, lookupKV, h2]
    · by_cases h2 : a1 = k
      · subst h2
        have : ¬ a = a1 := fun h => h1 h.symm
        simp [mapInsert, lookupKV, h1, this]
      · simp [mapInsert, lookupKV, h1, h2, ih]

theorem mapInsert_keys {α β : Type} [DecidableEq α] (m : List (α × β)) (a : α) (v : β) :
    (mapInsert m a v).map Prod.fst =
      if a ∈ m.map Prod.fst then m.map Prod.fst else m.map Prod.fst ++ [a] := by
  induction m with
  | nil => simp [mapInsert]
  | cons p rest ih =>
    obtain ⟨a1, b1⟩ := p
    by_cases h1 : a1 = a
    · subst h1; simp [mapInsert]
    · have : ¬ a = a1 := fun h => h1 h.symm
      by_cases h2 : a ∈ rest.map Prod.fst <;>
        simp [mapInsert, h1, h2, this, ih]

theorem mapInsert_keys_nodup {α β : Type} [DecidableEq α] (m : List (α × β)) (a : α) (v : β)
    (h : (m.map Prod.fst).Nodup) : ((mapInsert m a v).map Prod.fst).Nodup := by
  rw [mapInsert_keys]
  by_cases hm : a ∈ m.map Prod.fst
  · simpa [hm] using h
  · simp only [hm, if_false]
    simp [List.nodup_append, h, hm]

theorem foldl_filterStep_keys_nodup (fs : List String) :
    ∀ m : List (String × String), (m.map Prod.fst).Nodup →
      ((fs.foldl filterStep m).map Prod.fst).Nodup := by
  induction fs with
  | nil => intro m h; simpa using h
  | cons s rest ih =>
    intro m h
    exact ih (filterStep m s) (mapInsert_keys_nodup _ _ _ h)

theorem lookupKV_foldl_filterStep (k : String) (fs : List String) :
    ∀ m : List (String × String),
      lookupKV k (fs.foldl filterStep m) =
        match lastWrite fs k with
        | some v => some v
        | none => lookupKV k m := by
  induction fs with
  | nil => intro m; simp [lastWrite]
  | cons s rest ih =>
    intro m
    have h1 : lookupKV k (filterStep m s) =
        if (parseFilter s).1 = k then some (parseFilter s).2 else lookupKV k m :=
      lookupKV_mapInsert m _ k _
    cases hrw : lastWrite rest k with
    | some v => simp [List.foldl_cons, ih, hrw, lastWrite]
    | none =>
      by_cases hp : (parseFilter s).1 = k <;>
        simp [List.foldl_cons, ih, hrw, lastWrite, h1, hp]

theorem appAllowed_iff (app : App) (filters : List (String × String)) :
    appAllowedByFilters app (some filters) = true ↔
      ∃ p ∈ filters, (toString app.id = p.1 ∨ app.name = p.1) ∧
        (p.2 = "" ∨ app.vendor.head?.map Vendor.name = some p.2) := by
  cases happ : app.vendor.head? with
  | none => simp [appAllowedByFilters, List.any_eq_true, happ]
  | some v => simp [appAllowedByFilters, List.any_eq_true, happ]

theorem bool_eq_decide (b : Bool) (P : Prop) [Decidable P] (h : b = true ↔ P) :
    b = decide P := by
  cases b <;> simp_all

theorem prepare_filterMap (d : List App) (fo : Option (List String)) :
    PrepareSupportedApps d fo =
      (d.filter fun app =>
        !(decide (app.id = 0) || !appAllowedByFilters app (computeAppFilters fo))).map
        buildSupportedApp := by
  induction d with
  | nil => rfl
  | cons a rest ih =>
    simp only [PrepareSupportedApps] at ih ⊢
    rw [List.filterMap_cons, List.filter_cons]
    by_cases h0 : a.id = 0
    · simp_all
    · rcases Bool.eq_false_or_eq_true (appAllowedByFilters a (computeAppFilters fo)) with
        hA | hA <;> simp_all

theorem prepareSupportedApps_none (d : List App) :
    PrepareSupportedApps d none =
      (d.filter fun app => decide (app.id ≠ 0)).map buildSupportedApp := by
  rw [prepare_filterMap]
  congr 1
  apply List.filter_congr
  intro a _
  simp [appAllowedByFilters, computeAppFilters]

theorem foldl_vendor_last (l : List Vendor) :
    ∀ d : Nat, l.foldl (fun _ v => v.id) d = ((l.getLast?).map Vendor.id).getD d := by
  induction l with
  | nil => intro d; rfl
  | cons v rest ih =>
    intro d
    cases rest with
    | nil => simp [List.foldl]
    | cons w ws =>
      rw [List.foldl_cons, ih, List.getLast?_cons_cons]
      cases hgl : (w :: ws).getLast? with
      | none => simp [List.getLast?_eq_none_iff] at hgl
      | some x => simp

/-- C4: for every dictionary and every provided (non-null) filter list, an
application appears in the output of PrepareSupportedApps iff its ID is
not 0 and some (matchKey, vendorConstraint) pair of the compiled filter
mapping has the decimal string of the app's ID or the app's Name equal to
matchKey and either an empty vendorConstraint or a non-empty vendor list
whose first entry's Name equals vendorConstraint; the output order follows
the dictionary's iteration order (the output is the in-order filter of the
dictionary mapped through the record builder). -/
theorem c4_provided_filters_membership (dictApps : List App) (fs : List String) :
    PrepareSupportedApps dictApps (some fs) =
      (dictApps.filter fun app =>
        decide (app.id ≠ 0 ∧ ∃ p ∈ (computeAppFilters (some fs)).getD [],
          (toString app.id = p.1 ∨ app.name = p.1) ∧
          (p.2 = "" ∨ app.vendor.head?.map Vendor.name = some p.2))).map
        buildSupportedApp := by
  rw [prepare_filterMap]
  congr 1
  apply List.filter_congr
  intro app _
  have hiff := appAllowed_iff app (fs.foldl filterStep [])
  rw [show computeAppFilters (some fs) = some (fs.foldl filterStep []) from rfl]
  simp only [Option.getD_some]
  rw [bool_eq_decide (appAllowedByFilters app (some (fs.foldl filterStep []))) _ hiff]
  simp [Bool.not_or, decide_not]

/-- C5 (amended): with an absent (null) filter list, PrepareSupportedApps
returns every dictionary application with ID ≠ 0, in dictionary iteration
order, and each returned SupportedApp's Vendor field is the ID of the
LAST vendor in that application's vendor list (the loop overwrites the
field on every iteration), or 0 when the application has no vendors. -/
theorem c5_null_filters_last_vendor (dictApps : List App) :
    PrepareSupportedApps dictApps none =
      dictApps.filterMap fun app =>
        if app.id = 0 then none
        else some { id := app.id, appType := app.type,
                    vendor := ((app.vendor.getLast?).map Vendor.id).getD 0 } := by
  rw [prepareSupportedApps_none]
  induction dictApps with
  | nil => rfl
  | cons a rest ih =>
    rw [List.filter_cons, List.filterMap_cons]
    by_cases h0 : a.id = 0
    · simpa [h0] using ih
    · simpa [h0, buildSupportedApp, foldl_vendor_last] using ih

/-- C5 counterexample: on a dictionary whose single application carries two
vendors (IDs 1 then 2), PrepareSupportedApps with a null filter list sets
the Vendor field to 2 — the LAST vendor's ID — and not to 1, the ID of the
first vendor, which is what the claim predicts. -/
theorem c5_counterexample :
    PrepareSupportedApps
        [{ id := 5, type := "auth", name := "A",
           vendor := [{ id := 1, name := "v1" }, { id := 2, name := "v2" }] }] none ≠
      [{ id := 5, appType := "auth", vendor := 1 }] ∧
    PrepareSupportedApps
        [{ id := 5, type := "auth", name := "A",
           vendor := [{ id := 1, name := "v1" }, { id := 2, name := "v2" }] }] none =
      [{ id := 5, appType := "auth", vendor := 2 }] ∧
    ([{ id := 1, name := "v1" }, { id := 2, name := "v2" }] : List Vendor).head? =
      some { id := 1, name := "v1" } := by
  refine ⟨?_, rfl, rfl⟩
  decide

/-- C6: for every dictionary, an empty (non-null) filter list produces zero
supported applications — in contrast to the null filter list, under which
every application with ID ≠ 0 is returned. -/
theorem c6_empty_filters (dictApps : List App) :
    PrepareSupportedApps dictApps (some []) = [] ∧
    PrepareSupportedApps dictApps none =
      (dictApps.filter fun app => decide (app.id ≠ 0)).map buildSupportedApp := by
  refine ⟨?_, prepareSupportedApps_none dictApps⟩
  rw [prepare_filterMap]
  have : ∀ app : App, appAllowedByFilters app (computeAppFilters (some [])) = false := by
    intro app; rfl
  simp [this]

/-- C8: the mapping compiled by computeAppFilters binds each match key to
the vendor requirement of the LAST filter string carrying that key (last
write wins), and never holds more than one binding per match key (its key
list has no duplicates). -/
theorem c8_last_write_wins (fs : List String) (k : String) :
    lookupKV k ((computeAppFilters (some fs)).getD []) = lastWrite fs k ∧
    (((computeAppFilters (some fs)).getD []).map Prod.fst).Nodup := by
  constructor
  · have h := lookupKV_foldl_filterStep k fs []
    rw [show computeAppFilters (some fs) = some (fs.foldl filterStep []) from rfl]
    simp only [Option.getD_some]
    rw [h]
    cases hrw : lastWrite fs k <;> simp [lookupKV]
  · exact foldl_filterStep_keys_nodup fs [] (by simp)

/-- C10: a filter string splitting into three or more parts contributes to
the compiled mapping exactly the binding (second part ↦ first part): the
match key is part 1, the required vendor name part 0, and every part
beyond the second is ignored. -/
theorem c10_extra_parts_ignored (s p0 p1 : String) (rest : List String)
    (h : goSplitDot s = p0 :: p1 :: rest) (_hr : rest ≠ []) :
    parseFilter s = (p1, p0) ∧
    ∀ m : List (String × String), filterStep m s = mapInsert m p1 p0 := by
  have hp : parseFilter s = (p1, p0) := by
    rw [parseFilter, h]
  exact ⟨hp, fun m => by rw [filterStep, hp]⟩

/-- C10 witness: the three-part filter string "10415.16777251.extra" is
parsed to match key "16777251" with required vendor "10415", the third
part dropped. -/
theorem c10_witness :
    parseFilter "10415.16777251.extra" = ("16777251", "10415") ∧
    filterStep [] "10415.16777251.extra" = [("16777251", "10415")] := by
  have h := c10_extra_parts_ignored "10415.16777251.extra" "10415" "16777251" ["extra"]
    (by decide) (by decide)
  exact ⟨h.1, by rw [h.2 []]; rfl⟩

theorem handshakeOK_apply (f : HandlerFunc) (c : Conn) (m : Message) :
    handshakeOK f c m =
      if (smpeer_FromContext c.context).isSome then f c m else [] := by
  cases h : smpeer_FromContext c.context <;> simp [handshakeOK, h]

/-- C1: a handler registered through Handle, HandleFunc or HandleIdx under
a non-reserved command is stored behind the handshake gate: on a
connection whose context store has no PeerContext it performs no action at
all (not invoked, no answer, no error), and with the PeerContext present
it is invoked with the connection and message unchanged. -/
theorem c1_gate_on_registration (sm : StateMachine) (cmd : String) (idx : CommandIndex)
    (handler : HandlerFunc) (c : Conn) (m : Message)
    (hcmd : cmd ≠ "CER" ∧ cmd ≠ "CEA" ∧ cmd ≠ "DWR")
    (hidx : idx ≠ baseCERIdx ∧ idx ≠ baseCEAIdx ∧ idx ≠ baseDWRIdx) :
    ((lookupKV cmd (sm.HandleFunc cmd handler).mux.byName).map fun g => g c m) =
      some (if (smpeer_FromContext c.context).isSome then handler c m else []) ∧
    ((lookupKV cmd (sm.Handle cmd handler).mux.byName).map fun g => g c m) =
      some (if (smpeer_FromContext c.context).isSome then handler c m else []) ∧
    ((lookupKV idx (sm.HandleIdx idx handler).mux.byIdx).map fun g => g c m) =
      some (if (smpeer_FromContext c.context).isSome then handler c m else []) := by
  obtain ⟨hc1, hc2, hc3⟩ := hcmd
  obtain ⟨hi1, hi2, hi3⟩ := hidx
  have hn : ¬(cmd = "CER" ∨ cmd = "CEA" ∨ cmd = "DWR") := by
    rintro (h | h | h)
    · exact hc1 h
    · exact hc2 h
    · exact hc3 h
  have hni : ¬(idx = baseCERIdx ∨ idx = baseCEAIdx ∨ idx = baseDWRIdx) := by
    rintro (h | h | h)
    · exact hi1 h
    · exact hi2 h
    · exact hi3 h
  refine ⟨?_, ?_, ?_⟩ <;>
    simp [StateMachine.Handle, StateMachine.HandleFunc, StateMachine.HandleIdx, hn, hni,
      muxHandle, muxHandleIdx, lookupKV_mapInsert, handshakeOK_apply]

/-- C1 witness: registering a Re-Auth-Request handler on a fresh state
machine and delivering a RAR on a connection without PeerContext produces
the empty trace on all three registration surfaces. -/
theorem c1_witness :
    ((lookupKV "RAR" ((New [] exampleSettings).HandleFunc "RAR" exampleHandler).mux.byName).map
        fun g => g noPeerConn rarMsg) = some [] ∧
    ((lookupKV "RAR" ((New [] exampleSettings).Handle "RAR" exampleHandler).mux.byName).map
        fun g => g noPeerConn rarMsg) = some [] ∧
    ((lookupKV rarIdx ((New [] exampleSettings).HandleIdx rarIdx exampleHandler).mux.byIdx).map
        fun g => g noPeerConn rarMsg) = some [] := by
  have h := c1_gate_on_registration (New [] exampleSettings) "RAR" rarIdx exampleHandler
    noPeerConn rarMsg (by decide) (by decide)
  simpa [noPeerConn, smpeer_FromContext] using h

/-- C2: registering a handler for a reserved command — "CER", "CEA" or
"DWR" by name, or the three reserved base indices by structured index —
leaves both routing tables unchanged and appends exactly one ErrorReport
naming the rejected command to the error channel; the registration call is
a total function (it neither panics nor returns a failure). -/
theorem c2_reserved_guard (sm : StateMachine) (handler : HandlerFunc) (cmd : String)
    (idx : CommandIndex)
    (hcmd : cmd = "CER" ∨ cmd = "CEA" ∨ cmd = "DWR")
    (hidx : idx = baseCERIdx ∨ idx = baseCEAIdx ∨ idx = baseDWRIdx) :
    ((sm.HandleFunc cmd handler).mux.byName = sm.mux.byName ∧
     (sm.HandleFunc cmd handler).mux.byIdx = sm.mux.byIdx ∧
     (sm.HandleFunc cmd handler).mux.errors = sm.mux.errors ++
       [{ error := "cannot overwrite " ++ cmd ++ " command in the state machine" }]) ∧
    ((sm.Handle cmd handler).mux.byName = sm.mux.byName ∧
     (sm.Handle cmd handler).mux.byIdx = sm.mux.byIdx ∧
     (sm.Handle cmd handler).mux.errors = sm.mux.errors ++
       [{ error := "cannot overwrite " ++ cmd ++ " command in the state machine" }]) ∧
    ((sm.HandleIdx idx handler).mux.byName = sm.mux.byName ∧
     (sm.HandleIdx idx handler).mux.byIdx = sm.mux.byIdx ∧
     (sm.HandleIdx idx handler).mux.errors = sm.mux.errors ++
       [{ error := "cannot overwrite " ++ formatCommandIndex idx ++
          " command in the state machine" }]) := by
  have e1 : sm.HandleFunc cmd handler = sm.Error
      { error := "cannot overwrite " ++ cmd ++ " command in the state machine" } := by
    unfold StateMachine.HandleFunc
    exact if_pos hcmd
  have e3 : sm.HandleIdx idx handler = sm.Error
      { error := "cannot overwrite " ++ formatCommandIndex idx ++
        " command in the state machine" } := by
    unfold StateMachine.HandleIdx
    exact if_pos hidx
  refine ⟨?_, ?_, ?_⟩ <;>
    simp [StateMachine.Handle, e1, e3, StateMachine.Error, muxError]

/-- C2 witness: registering a "CEA" handler and a baseCEAIdx handler on a
fresh state machine leaves the routing tables unchanged and pushes the
rejection report. -/
theorem c2_witness :
    ((New [] exampleSettings).HandleFunc "CEA" exampleHandler).mux.errors =
      (New [] exampleSettings).mux.errors ++
        [{ error := "cannot overwrite CEA command in the state machine" }] ∧
    ((New [] exampleSettings).HandleIdx baseCEAIdx exampleHandler).mux.byName =
      (New [] exampleSettings).mux.byName ∧
    ((New [] exampleSettings).HandleIdx baseCEAIdx exampleHandler).mux.errors =
      (New [] exampleSettings).mux.errors ++
        [{ error := "cannot overwrite \x7b0 257 false\x7d command in the state machine" }] := by
  have h := c2_reserved_guard (New [] exampleSettings) exampleHandler "CEA" baseCEAIdx
    (Or.inr (Or.inl rfl)) (Or.inr (Or.inl rfl))
  refine ⟨?_, h.2.2.1, ?_⟩
  · have := h.1.2.2
    simpa using this
  · have := h.2.2.2.2
    simpa [formatCommandIndex, baseCEAIdx, CapabilitiesExchange] using this

/-- C9: New folds the deprecated single HostIPAddress into HostIPAddresses
exactly when the list is empty and the single address is non-empty, and
leaves a non-empty HostIPAddresses untouched. -/
theorem c9_legacy_promotion (dictApps : List App) (s : Settings) :
    (s.hostIPAddresses = [] ∧ s.hostIPAddress ≠ [] →
      (New dictApps s).cfg.hostIPAddresses = [s.hostIPAddress]) ∧
    (s.hostIPAddresses ≠ [] →
      (New dictApps s).cfg.hostIPAddresses = s.hostIPAddresses) := by
  have hcfg : (New dictApps s).cfg = (newCore dictApps s).cfg := rfl
  constructor
  · rintro ⟨h1, h2⟩
    rw [hcfg]
    unfold newCore
    rw [if_pos ⟨by simp [h1], List.length_pos.mpr h2⟩]
  · intro h1
    rw [hcfg]
    unfold newCore
    rw [if_neg fun hh => h1 (List.length_eq_zero.mp hh.1)]

/-- C9 witness: settings with an empty address list and the deprecated
single address 127.0.0.1 yield a state machine configured with exactly
that one address. -/
theorem c9_witness :
    (New [] exampleSettings).cfg.hostIPAddresses = [[127, 0, 0, 1]] := by
  have h := (c9_legacy_promotion [] exampleSettings).1 ⟨rfl, by decide⟩
  simpa [exampleSettings] using h

/-- C3 counterexample: in the state machine built by New, the handler
registered under the structured index baseDWRIdx is NOT wrapped by the
handshake gate: on a connection whose context store has no PeerContext it
still runs the Device-Watchdog-Request body and writes the answer. -/
theorem c3_counterexample :
    smpeer_FromContext noPeerConn.context = none ∧
    ((lookupKV baseDWRIdx (New [] exampleSettings).mux.byIdx).map
        fun g => g noPeerConn dwrMsg) =
      some [Action.invoked DeviceWatchdog noPeerConn dwrMsg,
            Action.answered noPeerConn { dwrMsg with request := false }] := by
  exact ⟨rfl, rfl⟩

/-- C3 (amended): the built-in Device-Watchdog-Request handler is wrapped
by the handshake gate only on the string-command registration path; the
structured-index registration performed at construction installs it
without the gate, so via that route the DWR handler body executes (and
answers) even on a connection that has not completed the CER/CEA
handshake. -/
theorem c3_amended_gate (dictApps : List App) (s : Settings) (c : Conn) (m : Message)
    (hc : smpeer_FromContext c.context = none) :
    ((lookupKV "DWR" (New dictApps s).mux.byName).map fun g => g c m) = some [] ∧
    ((lookupKV baseDWRIdx (New dictApps s).mux.byIdx).map fun g => g c m) =
      some (handleDWR (newCore dictApps s) c m) ∧
    handleDWR (newCore dictApps s) c m ≠ [] := by
  refine ⟨?_, ?_, by simp [handleDWR]⟩
  · simp [New, muxHandle, muxHandleIdx, mapInsert, lookupKV, handshakeOK, hc]
  · simp [New, muxHandle, muxHandleIdx, mapInsert, lookupKV, baseCERIdx, baseDWRIdx,
      CapabilitiesExchange, DeviceWatchdog]

/-- C3 amended-claim witness: on a concrete unverified connection the
string-registered DWR handler drops the watchdog request while the
index-registered body still produces actions. -/
theorem c3_amended_witness :
    ((lookupKV "DWR" (New [] exampleSettings).mux.byName).map
        fun g => g noPeerConn dwrMsg) = some [] ∧
    handleDWR (newCore [] exampleSettings) noPeerConn dwrMsg ≠ [] := by
  have h := c3_amended_gate [] exampleSettings noPeerConn dwrMsg rfl
  exact ⟨h.1, h.2.2⟩

end DiamSM
